import Mathlib

/-!
Verification of the CSS-modules utilities of `crates/rspack_plugin_css/src/utils.rs`:
identifier generation (`new_name_for`), export serialization
(`css_modules_exports_to_string`) and CSS url normalization (`normalize_url`).

Strings are modelled as Lean `String`/`List Char`; the byte-level operations of the
Rust code (UTF-8 slicing, percent decoding) are made explicit over `List Nat` bytes.
-/

set_option maxRecDepth 10000

/-! ## Character classes used by the `normalize_url` regexes -/

/-- The CSS whitespace class `[ \t\n\r\f]` used by the `TRIM_WHITE_SPACES` and
`UNESCAPE` regexes (`\x0c` is form feed `\f`). -/
def isCssWs (c : Char) : Bool :=
  c == ' ' || c == '\t' || c == '\n' || c == '\r' || c == '\x0c'

/-- The class `[\n\r\f]` of the `STRING_MULTILINE` regex. -/
def isLineBreak (c : Char) : Bool :=
  c == '\n' || c == '\r' || c == '\x0c'

/-- The hex-digit class `[0-9a-fA-F]` of the `UNESCAPE` regex. -/
def isHexDigitCh (c : Char) : Bool :=
  c.isDigit || ('a' ≤ c && c ≤ 'f') || ('A' ≤ c && c ≤ 'F')

/-- Value of one hex digit, as `u32::from_str_radix(_, 16)` reads it. -/
def hexCharVal (c : Char) : Nat :=
  if c.isDigit then c.toNat - 48
  else if 'a' ≤ c then c.toNat - 87
  else c.toNat - 55

/-- `u32::from_str_radix(s, 16)` on a (nonempty, ≤ 6 digit) hex-digit string:
most-significant digit first.  Six hex digits fit in a `u32`, so the Rust parse
cannot overflow for the strings this file feeds it. -/
def parseHexNat (l : List Char) : Nat :=
  l.foldl (fun a c => a * 16 + hexCharVal c) 0

/-! ## Stage 1: `STRING_MULTILINE.replace_all(s, "")`, regex `\\[\n\r\f]`.

`replace_all` scans left to right for non-overlapping matches of a backslash
followed by a line break and deletes both characters, resuming after the match. -/

def stringMultiline : List Char → List Char
  | [] => []
  | '\\' :: c :: rest =>
    if isLineBreak c then stringMultiline rest
    else '\\' :: stringMultiline (c :: rest)
  | c :: rest => c :: stringMultiline rest

/-! ## Stage 2: `TRIM_WHITE_SPACES.replace_all(s, "")`, regex `(^[ \t\n\r\f]*|[ \t\n\r\f]*$)`.

The anchored alternation deletes the maximal whitespace run at the start of the
string and the maximal run at its end (an interior position matches `[ \t\n\r\f]*$`
only when everything from it to the end is whitespace, i.e. the trailing run);
the net effect is a trim of both ends. -/

def cssTrim (l : List Char) : List Char :=
  ((l.dropWhile isCssWs).reverse.dropWhile isCssWs).reverse

/-! ## Stage 3: `UNESCAPE.replace_all`, regex `\\([0-9a-fA-F]{1,6}[ \t\n\r\f]?|[\s\S])`.

At a backslash the regex greedily takes up to six hex digits plus at most one
trailing CSS whitespace character; with no hex digit it takes one arbitrary
character; a final lone backslash matches nothing.  The replacement closure works
on the *byte* length of the match `m`:
* `m.len() > 2`: parse `m[1..].trim()` as hex; on success and a valid
  `char::from_u32` emit that code point, otherwise emit the whole match `caps[0]`
  unchanged (this branch is also reached by `\` + one multi-byte character,
  whose hex parse fails);
* `m.len() == 2`: emit `m[1..2]`, the single (single-byte) escaped character —
  including the case of one lone hex digit with no trailing whitespace. -/

/-- Replacement text for a match `\` ++ hex ++ ws with `hex ≠ []` and byte length
`> 2`: the decoded code point if `char::from_u32` accepts it, else the whole
match unchanged. -/
def cssEscapeChunk (hex ws : List Char) : List Char :=
  let v := parseHexNat hex
  if v < 55296 ∨ (57343 < v ∧ v < 1114112) then [Char.ofNat v]
  else '\\' :: (hex ++ ws)

/-- The `UNESCAPE` scan.  Every step consumes at least one character, so running
it with `fuel = l.length` (as `unescapeCore` does) never reaches the `0, l`
fallback on a nonempty list; the fuel only makes the recursion structural. -/
def unescapeGo : Nat → List Char → List Char
  | _, [] => []
  | 0, l => l
  | fuel + 1, '\\' :: rest =>
    let hex := (rest.takeWhile isHexDigitCh).take 6
    if hex.isEmpty then
      match rest with
      | [] => ['\\']
      | c :: rest' =>
        if c.utf8Size > 1 then '\\' :: c :: unescapeGo fuel rest'
        else c :: unescapeGo fuel rest'
    else
      match rest.drop hex.length with
      | c :: rest' =>
        if isCssWs c then cssEscapeChunk hex [c] ++ unescapeGo fuel rest'
        else if 2 ≤ hex.length then cssEscapeChunk hex [] ++ unescapeGo fuel (c :: rest')
        else hex ++ unescapeGo fuel (c :: rest')
      | [] => if 2 ≤ hex.length then cssEscapeChunk hex [] else hex
  | fuel + 1, c :: rest => c :: unescapeGo fuel rest

def unescapeCore (l : List Char) : List Char :=
  unescapeGo l.length l

/-! ## Stage 4 predicate: `DATA.is_match`, regex `^(?i)data:`.

Under Unicode simple case folding the only characters folding onto `d`, `a`, `t`
are their ASCII upper-case forms, so the check is an ASCII case-insensitive
prefix comparison with `data:`. -/

def isDataUrl (l : List Char) : Bool :=
  match l with
  | d :: a :: t :: a2 :: c :: _ =>
    d.toLower == 'd' && a.toLower == 'a' && t.toLower == 't' && a2.toLower == 'a' && c == ':'
  | _ => false

/-! ## Stage 5: `urlencoding::decode`.

`decode` percent-decodes the UTF-8 bytes of the string (`decode_binary`) and then
re-validates the result as UTF-8 (`String::from_utf8`); a malformed `%`-sequence
is kept literally, only invalid UTF-8 makes the call fail. -/

/-- UTF-8 encoding of one scalar value. -/
def utf8EncodeChar (c : Char) : List Nat :=
  let v := c.toNat
  if v < 128 then [v]
  else if v < 2048 then [192 + v / 64, 128 + v % 64]
  else if v < 65536 then [224 + v / 4096, 128 + (v / 64) % 64, 128 + v % 64]
  else [240 + v / 262144, 128 + (v / 4096) % 64, 128 + (v / 64) % 64, 128 + v % 64]

def utf8Encode (l : List Char) : List Nat :=
  (l.map utf8EncodeChar).flatten

/-- UTF-8 continuation byte. -/
def isCont (b : Nat) : Bool := 128 ≤ b && b < 192

/-- Strict UTF-8 decoding as done by Rust `String::from_utf8`: rejects overlong
forms, surrogates and values above `0x10FFFF`. -/
def utf8Decode : List Nat → Option (List Char)
  | [] => some []
  | b :: rest =>
    if b < 128 then (utf8Decode rest).map (fun l => Char.ofNat b :: l)
    else if b < 194 then none
    else if b < 224 then
      match rest with
      | b1 :: rest' =>
        if isCont b1 then
          (utf8Decode rest').map (fun l => Char.ofNat ((b - 192) * 64 + (b1 - 128)) :: l)
        else none
      | [] => none
    else if b < 240 then
      match rest with
      | b1 :: b2 :: rest' =>
        if (isCont b1 && isCont b2) = true ∧ (b = 224 → 160 ≤ b1) ∧ (b = 237 → b1 < 160) then
          (utf8Decode rest').map
            (fun l => Char.ofNat ((b - 224) * 4096 + (b1 - 128) * 64 + (b2 - 128)) :: l)
        else none
      | _ => none
    else if b < 245 then
      match rest with
      | b1 :: b2 :: b3 :: rest' =>
        if (isCont b1 && isCont b2 && isCont b3) = true
            ∧ (b = 240 → 144 ≤ b1) ∧ (b = 244 → b1 < 144) then
          (utf8Decode rest').map
            (fun l =>
              Char.ofNat ((b - 240) * 262144 + (b1 - 128) * 4096 + (b2 - 128) * 64 + (b3 - 128)) :: l)
        else none
      | _ => none
    else none

/-- One hex digit of a `%XX` escape (`urlencoding::from_hex_digit`). -/
def fromHexDigit (b : Nat) : Option Nat :=
  if 48 ≤ b ∧ b ≤ 57 then some (b - 48)
  else if 65 ≤ b ∧ b ≤ 70 then some (b - 55)
  else if 97 ≤ b ∧ b ≤ 102 then some (b - 87)
  else none

/-- `urlencoding::decode_binary`: `%` + two hex digits becomes the byte; a `%`
followed by one hex digit and a non-digit keeps `%` and the digit and rescans
from the second character; a `%` before a non-digit keeps `%` and rescans from
that character; a `%` with fewer than two bytes left is kept with the rest. -/
def percentDecodeBytes : List Nat → List Nat
  | [] => []
  | 37 :: b1 :: b2 :: rest =>
    match fromHexDigit b1, fromHexDigit b2 with
    | some hi, some lo => (hi * 16 + lo) :: percentDecodeBytes rest
    | some _, none => 37 :: b1 :: percentDecodeBytes (b2 :: rest)
    | none, _ => 37 :: percentDecodeBytes (b1 :: b2 :: rest)
  | 37 :: rest => 37 :: rest
  | b :: rest => b :: percentDecodeBytes rest

/-- `urlencoding::decode` on a string: percent-decode the UTF-8 bytes, then
re-validate; `none` models `Err(FromUtf8Error)`. -/
def urlencodingDecode (l : List Char) : Option (List Char) :=
  utf8Decode (percentDecodeBytes (utf8Encode l))

/-! ## `normalize_url` -/

/-- The pipeline of `normalize_url` up to and including escape resolution
(the value the source names `result` after the `UNESCAPE` replacement). -/
def normalizeUrlEscaped (l : List Char) : List Char :=
  unescapeCore (cssTrim (stringMultiline l))

def normalize_url_list (l : List Char) : List Char :=
  let r3 := normalizeUrlEscaped l
  if isDataUrl r3 then r3
  else if r3.contains '%' then
    match urlencodingDecode r3 with
    | some d => d
    | none => r3
  else r3

def normalize_url (s : String) : String :=
  String.mk (normalize_url_list s.data)

/-- String form of the stage-1..3 pipeline value. -/
def normalize_url_unescaped (s : String) : String :=
  String.mk (normalizeUrlEscaped s.data)

/-! ## JSON string literals: `serde_json::to_string` on a string value.

serde_json wraps the text in double quotes and escapes `"`, `\` and the control
characters below `0x20` (`\b \t \n \f \r`, and `\u00XX` with lowercase hex for
the rest); nothing else is escaped. -/

/-- serde_json's lowercase hex-digit table `b"0123456789abcdef"`. -/
def HEX_DIGITS : List Char := "0123456789abcdef".data

def hexDigitChar (n : Nat) : Char :=
  HEX_DIGITS.getD n '0'

def jsonEscapeChar (c : Char) : List Char :=
  if c = '"' then ['\\', '"']
  else if c = '\\' then ['\\', '\\']
  else if c = '\x08' then ['\\', 'b']
  else if c = '\x0c' then ['\\', 'f']
  else if c = '\n' then ['\\', 'n']
  else if c = '\r' then ['\\', 'r']
  else if c = '\t' then ['\\', 't']
  else if c.toNat < 32 then
    ['\\', 'u', '0', '0', hexDigitChar (c.toNat / 16), hexDigitChar (c.toNat % 16)]
  else [c]

def jsonString (s : String) : String :=
  String.mk ('"' :: (s.data.map jsonEscapeChar).flatten ++ ['"'])

/-! ## Case conversion: the `heck` crate's `to_lower_camel_case` / `to_kebab_case`.

heck splits the string on non-alphanumeric characters, then splits each piece at
case boundaries (before an uppercase that follows a lowercase, and before the
last uppercase of an uppercase run followed by a lowercase); kebab case joins
the lowercased words with `-`, lower camel case lowercases the first word and
capitalizes the rest.  Character classes are modelled for ASCII text (Lean's
`Char.isAlphanum`/`isUpper`/`isLower`/`toLower`/`toUpper` are the ASCII parts of
the Unicode classes heck uses). -/

inductive WordMode
  | boundary
  | lowercase
  | uppercase
deriving DecidableEq

/-- heck's `transform` scan over one separator-free piece, returning the list of
case-delimited words (`acc` is the current word, `mode` the mode of the previous
cased character). -/
def heckScan (acc : List Char) (mode : WordMode) : List Char → List (List Char)
  | [] => []
  | [c] => [acc ++ [c]]
  | c :: next :: rest =>
    let nextMode :=
      if c.isLower then WordMode.lowercase
      else if c.isUpper then WordMode.uppercase
      else mode
    if nextMode = WordMode.lowercase ∧ next.isUpper then
      (acc ++ [c]) :: heckScan [] WordMode.boundary (next :: rest)
    else if mode = WordMode.uppercase ∧ c.isUpper ∧ next.isLower then
      acc :: heckScan [c] WordMode.boundary (next :: rest)
    else
      heckScan (acc ++ [c]) nextMode (next :: rest)

/-- `str::split` on non-alphanumeric characters (empty pieces contribute no
words to `heckScan`). -/
def splitNonAlnumAux (cur : List Char) : List Char → List (List Char)
  | [] => [cur]
  | c :: rest =>
    if c.isAlphanum then splitNonAlnumAux (cur ++ [c]) rest
    else cur :: splitNonAlnumAux [] rest

def heckWords (l : List Char) : List (List Char) :=
  ((splitNonAlnumAux [] l).map (heckScan [] WordMode.boundary)).flatten

def heckLowercase (w : List Char) : List Char := w.map Char.toLower

def heckCapitalize : List Char → List Char
  | [] => []
  | c :: rest => Char.toUpper c :: rest.map Char.toLower

/-- `heck::ToKebabCase::to_kebab_case`. -/
def to_kebab_case (s : String) : String :=
  String.mk (String.intercalate "-" ((heckWords s.data).map (fun w => String.mk (heckLowercase w)))).data

/-- `heck::ToLowerCamelCase::to_lower_camel_case`. -/
def to_lower_camel_case (s : String) : String :=
  match heckWords s.data with
  | [] => ""
  | w :: ws => String.mk (heckLowercase w ++ (ws.map heckCapitalize).flatten)

/-! ## Data model of `css_modules_exports_to_string` -/

/-- `swc_core::css::modules::CssClassName`, as consumed by the serializer's
match (each variant's `JsWord` values are strings). -/
inductive CssClassName
  | Local (name : String)
  | Global (name : String)
  | Import (name : String) (fromRequest : String)
deriving DecidableEq

/-- Modelled from the spec: the graph collaborator's view of one entry of the
owner module's dependency list (`dependenciesOf`/`requestOf`/`targetModuleOf`/
`chunkIdOf` of §6).  `present = false` models `dependency_by_id` returning
`None`; `targetId` is the chunk-graph id of the dependency's target module, or
`none` when `module_graph_module_by_dependency_id` returns `None`. -/
structure DepView where
  present : Bool
  request : String
  targetId : Option String
deriving DecidableEq

/-- Modelled from the spec: the read-only dependency/chunk-graph view used during
serialization; `ownerDeps = none` models `module_graph_module_by_identifier`
returning `None` for the owner module. -/
structure Compilation where
  ownerDeps : Option (List DepView)
deriving DecidableEq

/-- Modelled from the spec: the non-exclusive naming-convention flags
{AsIs, CamelCase, KebabCase} (§3), read through `as_is()`, `camel_case()`,
`dashes()` as in the source. -/
structure LocalsConvention where
  as_is : Bool
  camel_case : Bool
  dashes : Bool
deriving DecidableEq

/-- Modelled from the spec: `RuntimeGlobals::REQUIRE`, the fixed runtime
require-helper global symbol emitted verbatim (§6). -/
def RuntimeGlobals_REQUIRE : String := "__webpack_require__"

/-- The source's dependency scan for an `Import` entry: over the owner module's
dependency list, `find_map` takes the first dependency that exists and whose
request equals `from`, returning that dependency's target module (and its
chunk-graph id); a matching dependency whose target is missing lets the scan
continue. -/
def resolveImport (comp : Compilation) (fromRequest : String) : Option String :=
  comp.ownerDeps.bind fun deps =>
    deps.findSome? fun d =>
      if d.present && d.request == fromRequest then d.targetId else none

/-- Outcome of running the Rust serializer: a returned `Ok` value, a returned
`Err` (`internal_error!`), or a panic (`.expect`). -/
inductive RustOutcome
  | ok (value : String)
  | err (message : String)
  | panicked (message : String)
deriving DecidableEq

/-- Per-entry expression of the serializer's inner `match`; `Except.error`
models the `.expect("should have css from module")` panic when no dependency
resolves. -/
def classNameExpr (comp : Compilation) : CssClassName → Except String String
  | CssClassName.Local name => Except.ok (jsonString name)
  | CssClassName.Global name => Except.ok (jsonString name)
  | CssClassName.Import name fromRequest =>
    match resolveImport comp fromRequest with
    | some fromId =>
      Except.ok (RuntimeGlobals_REQUIRE ++ "(" ++ jsonString fromId ++ ")[" ++ jsonString name ++ "]")
    | none => Except.error "should have css from module"

/-- The `elements.iter().map(...).collect::<Vec<_>>()` step: expressions of all
entries in declaration order, stopping at the first panic. -/
def exprList (comp : Compilation) : List CssClassName → Except String (List String)
  | [] => Except.ok []
  | e :: rest => do
    let x ← classNameExpr comp e
    let xs ← exprList comp rest
    Except.ok (x :: xs)

/-- `Vec::join(" + \" \" + ")`. -/
def joinExprs : List String → String
  | [] => ""
  | [e] => e
  | e :: e2 :: rest => e ++ " + \" \" + " ++ joinExprs (e2 :: rest)

/-- The `content` of one exported key. -/
def contentOf (comp : Compilation) (elements : List CssClassName) : Except String String :=
  (exprList comp elements).map joinExprs

/-- The lines `writeln!` emits for one key: one `  <json key>: <content>,\n`
line per enabled convention, in the fixed order as-is, camel case, kebab case
(`dashes`).  Writing into a Rust `String` cannot fail, so the `internal_error!`
branches of the source are unreachable. -/
def exportLines (conv : LocalsConvention) (key content : String) : String :=
  (if conv.as_is then "  " ++ jsonString key ++ ": " ++ content ++ ",\n" else "")
  ++ (if conv.camel_case then "  " ++ jsonString (to_lower_camel_case key) ++ ": " ++ content ++ ",\n" else "")
  ++ (if conv.dashes then "  " ++ jsonString (to_kebab_case key) ++ ": " ++ content ++ ",\n" else "")

/-- The body built by the `for (key, elements) in exports` loop, in table order;
the first missing `Import` dependency aborts the whole call (panic). -/
def serializeEntries (comp : Compilation) (conv : LocalsConvention) :
    List (String × List CssClassName) → Except String String
  | [] => Except.ok ""
  | (key, elements) :: rest => do
    let content ← contentOf comp elements
    let tail ← serializeEntries comp conv rest
    Except.ok (exportLines conv key content ++ tail)

/-- `css_modules_exports_to_string`.  The exports table is its ordered list of
(key, entries) pairs (`IndexMap` iteration order = insertion order). -/
def css_modules_exports_to_string (exports : List (String × List CssClassName))
    (comp : Compilation) (locals_convention : LocalsConvention) : RustOutcome :=
  match serializeEntries comp locals_convention exports with
  | Except.ok body => RustOutcome.ok ("module.exports = \x7b\n" ++ body ++ "\x7d;\n")
  | Except.error msg => RustOutcome.panicked msg

/-! ## `new_name_for` (the `TransformConfig` impl of `ModulesTransformConfig`) -/

/-- `ModulesTransformConfig`: per-invocation identity context — source file
path, identifier template (`LocalIdentName`), hash algorithm/digest kind
(abstract tags), digest truncation length and salt. -/
structure ModulesTransformConfig where
  filename : String
  local_name_ident : String
  hash_function : Nat
  hash_digest : Nat
  hash_digest_length : Nat
  hash_salt : String
deriving DecidableEq

/-- Modelled from the spec: one mixing step of the hash collaborator
("feed bytes, then finalize"); a concrete 64-bit polynomial mix standing in for
the configurable `RspackHash` algorithm. -/
def modelHashMix (acc b : Nat) : Nat :=
  (acc * 1099511628211 + b + 1) % 18446744073709551616

/-- Modelled from the spec: feeding the raw bytes of a string into the hash
state. -/
def modelHashFeedStr (acc : Nat) (s : String) : Nat :=
  (utf8Encode s.data).foldl modelHashMix acc

/-- Modelled from the spec: the finalized digest of `new_name_for`'s hash —
state seeded from salt, algorithm and digest kind, then fed the filename bytes
and then the local-name bytes, in that order. -/
def modelDigest (cfg : ModulesTransformConfig) (localName : String) : Nat :=
  modelHashFeedStr
    (modelHashFeedStr
      (modelHashMix (modelHashMix (modelHashFeedStr 14695981039346656037 cfg.hash_salt)
        cfg.hash_function) cfg.hash_digest)
      cfg.filename)
    localName

/-- Fixed-width lowercase hex rendering, most significant digit first. -/
def toHexFixed : Nat → Nat → List Char
  | 0, _ => []
  | w + 1, v => toHexFixed w (v / 16) ++ [hexDigitChar (v % 16)]

/-- Modelled from the spec: `digest.rendered(hash_digest_length)` — the digest
as a hex string truncated to the configured length (the model digest renders to
16 hex characters before truncation). -/
def hashRendered (digest len : Nat) : List Char :=
  (toHexFixed 16 digest).take len

/-- Outcome of running `new_name_for`: the returned identifier, or a Rust panic. -/
inductive NameOutcome
  | ok (value : String)
  | panicked (message : String)
deriving DecidableEq

/-- Modelled from the spec: the templating collaborator
`render(template, {path, hash, local})` — substitutes the placeholders
`[path]`, `[hash]`, `[local]`; unrecognized placeholders pass through
literally. -/
def renderTemplateCore (path hash localName : String) : List Char → List Char
  | '[' :: 'p' :: 'a' :: 't' :: 'h' :: ']' :: rest =>
    path.data ++ renderTemplateCore path hash localName rest
  | '[' :: 'h' :: 'a' :: 's' :: 'h' :: ']' :: rest =>
    hash.data ++ renderTemplateCore path hash localName rest
  | '[' :: 'l' :: 'o' :: 'c' :: 'a' :: 'l' :: ']' :: rest =>
    localName.data ++ renderTemplateCore path hash localName rest
  | c :: rest => c :: renderTemplateCore path hash localName rest
  | [] => []

def renderTemplate (template path hash localName : String) : String :=
  String.mk (renderTemplateCore path hash localName template.data)

/-- The hash string of `new_name_for` after its leading-digit guard: `_` is
prefixed when the first character of the rendered digest is a decimal digit.
Defined only after the source has read byte 0, so the empty rendering (length
0) has no guarded form — `new_name_for` panics there instead. -/
def guardedHash (cfg : ModulesTransformConfig) (localName : String) : List Char :=
  match hashRendered (modelDigest cfg localName) cfg.hash_digest_length with
  | [] => []
  | c :: rest => if c.isDigit then '_' :: c :: rest else c :: rest

/-- `new_name_for`: hash the filename then the local name, render the digest to
`hash_digest_length` characters, read `hash.as_bytes()[0]` (a panic when the
rendering is empty; the rendering is ASCII hex so byte 0 is its first
character), prefix `_` on a leading decimal digit, then substitute into the
configured template. -/
def new_name_for (cfg : ModulesTransformConfig) (localName : String) : NameOutcome :=
  match hashRendered (modelDigest cfg localName) cfg.hash_digest_length with
  | [] => NameOutcome.panicked "index out of bounds: the len is 0 but the index is 0"
  | c :: rest =>
    let hash := if c.isDigit then '_' :: c :: rest else c :: rest
    NameOutcome.ok (renderTemplate cfg.local_name_ident cfg.filename (String.mk hash) localName)

/-- Number of enabled naming conventions — the number of property lines the
serializer emits per exported key. -/
def convCount (conv : LocalsConvention) : Nat :=
  (if conv.as_is then 1 else 0) + (if conv.camel_case then 1 else 0)
    + (if conv.dashes then 1 else 0)

/-! ## Claims about `normalize_url` and the serializer's error behavior -/

/-- C1 (code bug): at an exports table whose `Import` entry's `fromRequest`
matches no dependency of the owner module, `css_modules_exports_to_string` does
not return the module-scoped internal error the spec requires: it panics via
`.expect("should have css from module")`, which is not a `Result::Err` and is
not scoped to the module.  Evaluations at two failing inputs (no dependencies
at all; only a non-matching dependency), plus a successful run of another
module against the same graph showing the input is otherwise serializable. -/
theorem c1_missing_import_panics :
    css_modules_exports_to_string [("a", [CssClassName.Import "b" "./other.css"])]
      ⟨some []⟩ ⟨true, false, false⟩
      = RustOutcome.panicked "should have css from module" ∧
    css_modules_exports_to_string [("a", [CssClassName.Import "b" "./other.css"])]
      ⟨some [⟨true, "./unrelated.css", some "7"⟩]⟩ ⟨true, false, false⟩
      = RustOutcome.panicked "should have css from module" ∧
    css_modules_exports_to_string [("a", [CssClassName.Local "x"])]
      ⟨some [⟨true, "./unrelated.css", some "7"⟩]⟩ ⟨true, false, false⟩
      = RustOutcome.ok "module.exports = \x7b\n  \"a\": \"x\",\n\x7d;\n" := by
  exact ⟨rfl, rfl, rfl⟩

/-- C2 counterexample: the claim says a backslash followed by 1 to 6 hex digits
decodes to the code point of the hex value, so `normalize("\4")` would be the
control character U+0004; the code's replacement closure sees a two-byte match
and emits the literal digit `4` instead. -/
theorem c2_counterexample :
    normalize_url "\\4" = "4" ∧ ("4" : String) ≠ "\x04" := by
  exact ⟨rfl, by decide⟩

/-- C2 (amended): a backslash escape of hex digits decodes to the code point of
the hex value only when the whole match is longer than two bytes — two or more
hex digits, or one hex digit plus a consumed trailing whitespace character; a
two-byte match (a backslash before any single one-byte character, including a
lone hex digit) emits that character literally; a longer match whose hex parse
or code-point conversion fails (a backslash before one multi-byte character, a
surrogate or out-of-range value) emits the entire matched text unchanged;
`normalize("\48\65\6c\6c\6f") = "Hello"`. -/
theorem c2_escape_resolution_amended :
    normalize_url "\\48\\65\\6c\\6c\\6f" = "Hello" ∧
    normalize_url "\\4 x" = "\x04x" ∧
    normalize_url "\\48  x" = "H x" ∧
    normalize_url "\\4x" = "4x" ∧
    normalize_url "\\x" = "x" ∧
    normalize_url "\\é" = "\\é" ∧
    normalize_url "a\\110000 b" = "a\\110000 b" ∧
    normalize_url "\\d800 x" = "\\d800 x" := by
  exact ⟨rfl, rfl, rfl, rfl, rfl, rfl, rfl, rfl⟩

/-- C7: `normalize_url` deletes backslash-linebreak pairs first, trims CSS
whitespace strictly second, and only then resolves escapes: the escaped stage
value is exactly `unescapeCore ∘ cssTrim ∘ stringMultiline`; a backslash-newline
pair inside plain text is deleted with no other change; an escape decoding to a
space survives normalization (so the trim ran before escape resolution); the
trim removes exactly the CSS whitespace set at both ends. -/
theorem c7_stage_order :
    (∀ s : String,
      normalize_url_unescaped s = String.mk (unescapeCore (cssTrim (stringMultiline s.data)))) ∧
    stringMultiline ['a', 'b', '\\', '\n', 'c', 'd'] = ['a', 'b', 'c', 'd'] ∧
    normalize_url "ab\\\ncd" = "abcd" ∧
    normalize_url "\\20" = " " ∧
    normalize_url " \t\r\x0c\n x \t\r\x0c\n" = "x" := by
  exact ⟨fun s => rfl, rfl, rfl, rfl, rfl⟩

/-- C8: `normalize_url` is a total function; its result is either the
percent-decoded form of the stage-3 (escape-resolved) value, or — whenever the
data-URI check, the `%` test or the decoding refuse — that stage-3 value
returned unchanged, the least-processed safe value. -/
theorem c8_total_worst_case (s : String) :
    normalize_url s = normalize_url_unescaped s ∨
    ∃ d, urlencodingDecode (normalize_url_unescaped s).data = some d ∧
      normalize_url s = String.mk d := by
  by_cases h1 : isDataUrl (normalizeUrlEscaped s.data)
  · left
    simp [normalize_url, normalize_url_list, normalize_url_unescaped, h1]
  · by_cases h2 : '%' ∈ normalizeUrlEscaped s.data
    · cases h3 : urlencodingDecode (normalizeUrlEscaped s.data) with
      | some d =>
        right
        exact ⟨d, h3, by simp [normalize_url, normalize_url_list, h1, h2, h3]⟩
      | none =>
        left
        simp [normalize_url, normalize_url_list, normalize_url_unescaped, h1, h2, h3]
    · left
      simp [normalize_url, normalize_url_list, normalize_url_unescaped, h1, h2]

/-! ## Claims about `new_name_for` -/

/-- Helper: the fixed-width hex rendering has exactly the requested width. -/
theorem toHexFixed_length (w v : Nat) : (toHexFixed w v).length = w := by
  induction w generalizing v with
  | zero => rfl
  | succ n ih => simp [toHexFixed, ih]

/-- Helper: with a positive truncation length the rendered hash is nonempty. -/
theorem hashRendered_ne_nil (digest len : Nat) (h : 1 ≤ len) :
    hashRendered digest len ≠ [] := by
  intro hnil
  have := congrArg List.length hnil
  simp [hashRendered, toHexFixed_length] at this
  omega

/-- C9: `new_name_for` is deterministic — two invocations agreeing on the
source file path, local class name, and every identity-context component (hash
algorithm, digest kind, salt, truncation length, template) produce equal
identifiers. -/
theorem c9_new_name_for_deterministic (c1 c2 : ModulesTransformConfig) (l1 l2 : String)
    (hfile : c1.filename = c2.filename)
    (htmpl : c1.local_name_ident = c2.local_name_ident)
    (hfun : c1.hash_function = c2.hash_function)
    (hdig : c1.hash_digest = c2.hash_digest)
    (hlen : c1.hash_digest_length = c2.hash_digest_length)
    (hsalt : c1.hash_salt = c2.hash_salt)
    (hlocal : l1 = l2) :
    new_name_for c1 l1 = new_name_for c2 l2 := by
  cases c1
  cases c2
  simp_all

/-- C9 witness. -/
theorem c9_witness :
    new_name_for ⟨"src/a.css", "[hash]", 1, 2, 8, "salt"⟩ "btn"
      = new_name_for ⟨"src/a.css", "[hash]", 1, 2, 8, "salt"⟩ "btn" :=
  c9_new_name_for_deterministic _ _ _ _ rfl rfl rfl rfl rfl rfl rfl

/-- C10: the leading-digit check reads byte 0 of the rendered hash, so whenever
the configured truncation length is at least 1 the rendering is nonempty and
`new_name_for` returns an identifier; with truncation length 0 the rendering is
empty and the read panics with an index-out-of-bounds — a precondition the spec
does not state. -/
theorem c10_hash_index_bounds (cfg : ModulesTransformConfig) (localName : String)
    (h : 1 ≤ cfg.hash_digest_length) :
    (∃ s, new_name_for cfg localName = NameOutcome.ok s) ∧
    new_name_for { cfg with hash_digest_length := 0 } localName
      = NameOutcome.panicked "index out of bounds: the len is 0 but the index is 0" := by
  constructor
  · cases hh : hashRendered (modelDigest cfg localName) cfg.hash_digest_length with
    | nil => exact absurd hh (hashRendered_ne_nil _ _ h)
    | cons c rest =>
      refine ⟨renderTemplate cfg.local_name_ident cfg.filename
        (String.mk (if c.isDigit then '_' :: c :: rest else c :: rest)) localName, ?_⟩
      simp only [new_name_for]
      rw [hh]
  · simp [new_name_for, hashRendered]

/-- C10 witness: the out-of-bounds half at a concrete configuration. -/
theorem c10_witness :
    new_name_for ⟨"src/a.css", "[hash]", 0, 0, 0, ""⟩ "x"
      = NameOutcome.panicked "index out of bounds: the len is 0 but the index is 0" :=
  (c10_hash_index_bounds ⟨"src/a.css", "[hash]", 0, 0, 4, ""⟩ "x" (by decide)).2

/-- C6 counterexample: the template is part of the identity context, and the
modelled templating collaborator substitutes `[local]` with the local name, so
the local name `1a` with template `[local]` yields the identifier `1a`, which
starts with a decimal digit — refuting "no identifier produced by generate
starts with a decimal digit" as a statement about every identity context. -/
theorem c6_counterexample :
    new_name_for ⟨"src/a.css", "[local]", 0, 0, 8, ""⟩ "1a" = NameOutcome.ok "1a" ∧
    "1a".data.head? = some '1' ∧ '1'.isDigit = true := by
  exact ⟨by decide, rfl, by decide⟩

/-- C6 (amended): when the rendered hash is nonempty (truncation length at
least 1), `new_name_for` prefixes `_` exactly when the first character of the
rendered digest is a decimal digit — so the hash string substituted into the
template never starts with a digit, and the final identifier is the template
rendering with that guarded hash; identifiers of templates exposing other text
first (such as `[local]`) can still start with a digit. -/
theorem c6_hash_guard_amended (cfg : ModulesTransformConfig) (localName : String)
    (h : 1 ≤ cfg.hash_digest_length) :
    (∀ c cs, guardedHash cfg localName = c :: cs → c.isDigit = false) ∧
    new_name_for cfg localName
      = NameOutcome.ok (renderTemplate cfg.local_name_ident cfg.filename
          (String.mk (guardedHash cfg localName)) localName) := by
  cases hh : hashRendered (modelDigest cfg localName) cfg.hash_digest_length with
  | nil => exact absurd hh (hashRendered_ne_nil _ _ h)
  | cons c0 rest =>
    constructor
    · intro c cs heq
      rw [guardedHash, hh] at heq
      by_cases hd : c0.isDigit
      · simp [hd] at heq
        obtain ⟨hc, -⟩ := heq
        subst hc
        decide
      · simp [hd] at heq
        obtain ⟨hc, -⟩ := heq
        subst hc
        simpa using hd
    · simp only [new_name_for, guardedHash]
      rw [hh]

/-- C6 witness: the amended equation at a concrete hash-template context. -/
theorem c6_witness :
    new_name_for ⟨"src/a.css", "[hash]", 0, 0, 4, ""⟩ "btn"
      = NameOutcome.ok (renderTemplate "[hash]" "src/a.css"
          (String.mk (guardedHash ⟨"src/a.css", "[hash]", 0, 0, 4, ""⟩ "btn")) "btn") :=
  (c6_hash_guard_amended ⟨"src/a.css", "[hash]", 0, 0, 4, ""⟩ "btn" (by decide)).2

/-! ## Claims about `css_modules_exports_to_string` output shape -/

/-- C5: per-entry expressions — `Local`/`Global` render as JSON string literals
of the class name, a resolvable `Import` renders as
`<REQUIRE_HELPER>(<resolved id>)["<name>"]` — and a key with several entries
joins them in declaration order with the literal text ` + " " + `; in
particular `[Local "a", Import "b" "./other.css"]` serializes to
`"a" + " " + __webpack_require__("42")["b"]` when `./other.css` resolves to
module id `42`. -/
theorem c5_composition_join (comp : Compilation) (e1 e2 : CssClassName) (s1 s2 : String)
    (h1 : classNameExpr comp e1 = Except.ok s1)
    (h2 : classNameExpr comp e2 = Except.ok s2) :
    contentOf comp [e1, e2] = Except.ok (s1 ++ " + \" \" + " ++ s2) ∧
    (∀ elements exprs, exprList comp elements = Except.ok exprs →
      contentOf comp elements = Except.ok (joinExprs exprs)) ∧
    (∀ name, classNameExpr comp (CssClassName.Local name) = Except.ok (jsonString name)) ∧
    (∀ name, classNameExpr comp (CssClassName.Global name) = Except.ok (jsonString name)) ∧
    (∀ name fromRequest fromId, resolveImport comp fromRequest = some fromId →
      classNameExpr comp (CssClassName.Import name fromRequest)
        = Except.ok (RuntimeGlobals_REQUIRE ++ "(" ++ jsonString fromId ++ ")["
            ++ jsonString name ++ "]")) ∧
    css_modules_exports_to_string
      [("key", [CssClassName.Local "a", CssClassName.Import "b" "./other.css"])]
      ⟨some [⟨true, "./other.css", some "42"⟩]⟩ ⟨true, false, false⟩
      = RustOutcome.ok
          "module.exports = \x7b\n  \"key\": \"a\" + \" \" + __webpack_require__(\"42\")[\"b\"],\n\x7d;\n" := by
  refine ⟨?_, ?_, fun name => rfl, fun name => rfl, ?_, by decide⟩
  · simp only [contentOf, exprList, h1, h2]
    rfl
  · intro elements exprs he
    simp only [contentOf, he]
    rfl
  · intro name fromRequest fromId hr
    simp [classNameExpr, hr]

/-- C5 witness: the join at concrete entries, discharging the resolvability
hypotheses. -/
theorem c5_witness :
    contentOf ⟨some [⟨true, "./other.css", some "42"⟩]⟩
      [CssClassName.Local "a", CssClassName.Import "b" "./other.css"]
      = Except.ok ("\"a\"" ++ " + \" \" + " ++ "__webpack_require__(\"42\")[\"b\"]") :=
  (c5_composition_join ⟨some [⟨true, "./other.css", some "42"⟩]⟩
    (CssClassName.Local "a") (CssClassName.Import "b" "./other.css")
    "\"a\"" "__webpack_require__(\"42\")[\"b\"]" rfl rfl).1

/-! ## Newline accounting for the serializer (claim C4) -/

/-- Helper: serde_json's hex digits are never a newline. -/
theorem hexDigitChar_ne_nl (n : Nat) : hexDigitChar n ≠ '\n' := by
  by_cases h : n < 16
  · have H : ∀ m, m < 16 → hexDigitChar m ≠ '\n' := by decide
    exact H n h
  · unfold hexDigitChar
    rw [List.getD_eq_default]
    · decide
    · have h16 : HEX_DIGITS.length = 16 := by decide
      omega

/-- Helper: JSON escaping emits no literal newline. -/
theorem count_nl_jsonEscapeChar (c : Char) : (jsonEscapeChar c).count '\n' = 0 := by
  unfold jsonEscapeChar
  split_ifs with h1 h2 h3 h4 h5 h6 h7 h8 <;>
    simp_all [List.count_cons, beq_iff_eq, hexDigitChar_ne_nl (c.toNat / 16),
      hexDigitChar_ne_nl (c.toNat % 16)]

/-- Helper: a JSON string literal contains no literal newline. -/
theorem count_nl_jsonString (s : String) : (jsonString s).data.count '\n' = 0 := by
  unfold jsonString
  have H : ∀ l : List Char, ((l.map jsonEscapeChar).flatten).count '\n' = 0 := by
    intro l
    induction l with
    | nil => rfl
    | cons c rest ih =>
      simp [List.count_append, ih, count_nl_jsonEscapeChar c]
  simp [List.count_cons, List.count_append, H]

/-- Helper: every per-entry expression contains no literal newline. -/
theorem count_nl_classNameExpr (comp : Compilation) (e : CssClassName) (s : String)
    (h : classNameExpr comp e = Except.ok s) : s.data.count '\n' = 0 := by
  cases e with
  | Local name =>
    simp only [classNameExpr, Except.ok.injEq] at h
    subst h
    exact count_nl_jsonString name
  | Global name =>
    simp only [classNameExpr, Except.ok.injEq] at h
    subst h
    exact count_nl_jsonString name
  | Import name fromRequest =>
    simp only [classNameExpr] at h
    cases hr : resolveImport comp fromRequest with
    | none => rw [hr] at h; exact absurd h (by simp)
    | some fromId =>
      rw [hr] at h
      simp only [Except.ok.injEq] at h
      subst h
      have hR : (RuntimeGlobals_REQUIRE).data.count '\n' = 0 := by decide
      have hP : ("(").data.count '\n' = 0 := by decide
      have hB : (")[").data.count '\n' = 0 := by decide
      have hE : ("]").data.count '\n' = 0 := by decide
      simp [String.data_append, List.count_append, hR, hP, hB, hE,
        count_nl_jsonString fromId, count_nl_jsonString name]

/-- Helper: every expression collected by `exprList` is newline-free. -/
theorem count_nl_exprList (comp : Compilation) (elements : List CssClassName)
    (exprs : List String) (h : exprList comp elements = Except.ok exprs) :
    ∀ x ∈ exprs, x.data.count '\n' = 0 := by
  induction elements generalizing exprs with
  | nil =>
    simp only [exprList, Except.ok.injEq] at h
    subst h
    intro x hx
    exact absurd hx (List.not_mem_nil x)
  | cons e rest ih =>
    simp only [exprList] at h
    cases he : classNameExpr comp e with
    | error msg => rw [he] at h; exact absurd h (by simp [Bind.bind, Except.bind])
    | ok x0 =>
      rw [he] at h
      cases hr : exprList comp rest with
      | error msg =>
        rw [hr] at h
        exact absurd h (by simp [Bind.bind, Except.bind])
      | ok xs0 =>
        rw [hr] at h
        simp only [Bind.bind, Except.bind, Except.ok.injEq] at h
        subst h
        intro x hx
        rcases List.mem_cons.mp hx with hx0 | hxs
        · subst hx0
          exact count_nl_classNameExpr comp e x he
        · exact ih xs0 hr x hxs

/-- Helper: joining newline-free expressions with ` + " " + ` stays
newline-free. -/
theorem count_nl_joinExprs (l : List String) (h : ∀ x ∈ l, x.data.count '\n' = 0) :
    (joinExprs l).data.count '\n' = 0 := by
  induction l with
  | nil => rfl
  | cons e rest ih =>
    cases rest with
    | nil => simpa using h e (by simp)
    | cons e2 r =>
      have hsep : (" + \" \" + ").data.count '\n' = 0 := by decide
      have htail : (joinExprs (e2 :: r)).data.count '\n' = 0 :=
        ih fun x hx => h x (List.mem_cons_of_mem e hx)
      have hhead : e.data.count '\n' = 0 := h e (by simp)
      simp [joinExprs, String.data_append, List.count_append, hsep, htail, hhead]

/-- Helper: an `Ok` content is newline-free. -/
theorem count_nl_contentOf (comp : Compilation) (elements : List CssClassName)
    (content : String) (h : contentOf comp elements = Except.ok content) :
    content.data.count '\n' = 0 := by
  unfold contentOf at h
  cases he : exprList comp elements with
  | error msg => rw [he] at h; exact absurd h (by simp [Except.map])
  | ok exprs =>
    rw [he] at h
    simp only [Except.map, Except.ok.injEq] at h
    subst h
    exact count_nl_joinExprs exprs (count_nl_exprList comp elements exprs he)

/-- Helper: one emitted property line holds exactly one newline. -/
theorem count_nl_line (key content : String) (hc : content.data.count '\n' = 0) :
    ("  " ++ jsonString key ++ ": " ++ content ++ ",\n").data.count '\n' = 1 := by
  have h2 : ("  ").data.count '\n' = 0 := by decide
  have h3 : (": ").data.count '\n' = 0 := by decide
  have h4 : (",\n").data.count '\n' = 1 := by decide
  simp [String.data_append, List.count_append, count_nl_jsonString key, hc, h2, h3, h4]

/-- Helper: per key, the emitted lines hold exactly one newline per enabled
convention. -/
theorem count_nl_exportLines (conv : LocalsConvention) (key content : String)
    (hc : content.data.count '\n' = 0) :
    (exportLines conv key content).data.count '\n' = convCount conv := by
  unfold exportLines convCount
  have h2 : ("  ").data.count '\n' = 0 := by decide
  have h3 : (": ").data.count '\n' = 0 := by decide
  have h4 : (",\n").data.count '\n' = 1 := by decide
  split_ifs <;>
    simp [String.data_append, List.count_append, count_nl_jsonString, hc, h2, h3, h4]

/-- Helper: the body of a successful serialization holds `keys × conventions`
newlines. -/
theorem count_nl_serializeEntries (comp : Compilation) (conv : LocalsConvention)
    (exports : List (String × List CssClassName)) (body : String)
    (h : serializeEntries comp conv exports = Except.ok body) :
    body.data.count '\n' = exports.length * convCount conv := by
  induction exports generalizing body with
  | nil =>
    simp only [serializeEntries, Except.ok.injEq] at h
    subst h
    simp
  | cons kv rest ih =>
    obtain ⟨key, elements⟩ := kv
    simp only [serializeEntries] at h
    cases hc : contentOf comp elements with
    | error msg => rw [hc] at h; exact absurd h (by simp [Bind.bind, Except.bind])
    | ok content =>
      rw [hc] at h
      cases ht : serializeEntries comp conv rest with
      | error msg =>
        rw [ht] at h
        exact absurd h (by simp [Bind.bind, Except.bind])
      | ok tail =>
        rw [ht] at h
        simp only [Bind.bind, Except.bind, Except.ok.injEq] at h
        subst h
        have h1 := count_nl_exportLines conv key content (count_nl_contentOf comp elements content hc)
        have h2 := ih tail ht
        simp [String.data_append, List.count_append, h1, h2, List.length_cons,
          Nat.succ_mul, Nat.add_comm]

/-- C4: a successful serialization emits, per exported key in table order, one
property line per enabled naming convention (so the output's newline count is
exactly 2 + keys × enabled conventions, the 2 being the header and footer), in
the fixed per-key order as-is, camel case, kebab case; key `fooBar` with
conventions {AsIs, KebabCase} emits exactly the lines `"fooBar"` then
`"foo-bar"`; conventions producing the same transformed key are not
deduplicated (`foo` with {AsIs, CamelCase} emits the identical line twice);
keys emit in insertion order, not sorted. -/
theorem c4_convention_fanout (exports : List (String × List CssClassName))
    (comp : Compilation) (conv : LocalsConvention) (out : String)
    (h : css_modules_exports_to_string exports comp conv = RustOutcome.ok out) :
    out.data.count '\n' = 2 + exports.length * convCount conv ∧
    css_modules_exports_to_string [("fooBar", [CssClassName.Local "x"])]
      ⟨some []⟩ ⟨true, false, true⟩
      = RustOutcome.ok "module.exports = \x7b\n  \"fooBar\": \"x\",\n  \"foo-bar\": \"x\",\n\x7d;\n" ∧
    css_modules_exports_to_string [("foo", [CssClassName.Local "x"])]
      ⟨some []⟩ ⟨true, true, false⟩
      = RustOutcome.ok "module.exports = \x7b\n  \"foo\": \"x\",\n  \"foo\": \"x\",\n\x7d;\n" ∧
    css_modules_exports_to_string
      [("b", [CssClassName.Local "x"]), ("a", [CssClassName.Local "y"])]
      ⟨some []⟩ ⟨true, false, false⟩
      = RustOutcome.ok "module.exports = \x7b\n  \"b\": \"x\",\n  \"a\": \"y\",\n\x7d;\n" := by
  refine ⟨?_, by decide, by decide, by decide⟩
  unfold css_modules_exports_to_string at h
  cases hs : serializeEntries comp conv exports with
  | error msg => rw [hs] at h; exact absurd h (by simp)
  | ok body =>
    rw [hs] at h
    simp only [RustOutcome.ok.injEq] at h
    subst h
    have hb := count_nl_serializeEntries comp conv exports body hs
    have h1 : ("module.exports = \x7b\n").data.count '\n' = 1 := by decide
    have h2 : ("\x7d;\n").data.count '\n' = 1 := by decide
    simp [String.data_append, List.count_append, hb, h1, h2]
    omega

/-- C4 witness: the newline count at a concrete successful serialization. -/
theorem c4_witness :
    ("module.exports = \x7b\n  \"k\": \"x\",\n\x7d;\n").data.count '\n' = 2 + 1 * 1 :=
  (c4_convention_fanout [("k", [CssClassName.Local "x"])] ⟨some []⟩ ⟨true, false, false⟩
    "module.exports = \x7b\n  \"k\": \"x\",\n\x7d;\n" (by decide)).1

/-- C3: after escape resolution, `normalize_url` returns the stage-3 value
unchanged whenever it case-insensitively starts with `data:`; otherwise, when it
contains `%`, the function attempts percent-decoding and returns the decoded
string on success or the stage-3 value unchanged on failure; without a `%` the
stage-3 value is returned as is; `normalize("foo%20bar") = "foo bar"` while the
`data:` example is returned unchanged. -/
theorem c3_postprocess (s : String) :
    (isDataUrl (normalize_url_unescaped s).data = true →
      normalize_url s = normalize_url_unescaped s) ∧
    (isDataUrl (normalize_url_unescaped s).data = false →
      '%' ∈ (normalize_url_unescaped s).data →
      normalize_url s
        = ((urlencodingDecode (normalize_url_unescaped s).data).map String.mk).getD
            (normalize_url_unescaped s)) ∧
    (isDataUrl (normalize_url_unescaped s).data = false →
      '%' ∉ (normalize_url_unescaped s).data →
      normalize_url s = normalize_url_unescaped s) ∧
    normalize_url "foo%20bar" = "foo bar" ∧
    normalize_url "data:image/png;base64,Zm9v%20" = "data:image/png;base64,Zm9v%20" := by
  refine ⟨?_, ?_, ?_, rfl, rfl⟩
  · intro h1
    have h1' : isDataUrl (normalizeUrlEscaped s.data) = true := h1
    simp [normalize_url, normalize_url_list, normalize_url_unescaped, h1']
  · intro h1 h2
    have h1' : isDataUrl (normalizeUrlEscaped s.data) = false := h1
    have h2' : '%' ∈ normalizeUrlEscaped s.data := h2
    cases h3 : urlencodingDecode (normalizeUrlEscaped s.data) with
    | some d =>
      simp [normalize_url, normalize_url_list, normalize_url_unescaped, h1', h2', h3]
    | none =>
      simp [normalize_url, normalize_url_list, normalize_url_unescaped, h1', h2', h3]
  · intro h1 h2
    have h1' : isDataUrl (normalizeUrlEscaped s.data) = false := h1
    have h2' : '%' ∉ normalizeUrlEscaped s.data := h2
    simp [normalize_url, normalize_url_list, normalize_url_unescaped, h1', h2']

/-- C3 witness: percent-decoding applies at a fresh non-data input. -/
theorem c3_witness : normalize_url "a%2Fb" = "a/b" := by
  have h := (c3_postprocess "a%2Fb").2.1 (by decide) (by decide)
  exact h.trans (by decide)
